import Mathlib

/-!
Shallow embedding of the core of the `polar` repository: the `ring`
package's circular buffer, and the `pmd` package's setting codec, frame
decoding and session dispatch.  Go slices are modelled as `List`,
machine bytes as `Nat` (with explicit `< 256` bounds where they matter),
Go `int64` arithmetic as `Int` with explicit wrapping, and Go's
truncated integer division as `Int.tdiv`/`Int.tmod`.  A Go runtime
panic (out-of-range slice index) is modelled as a distinguished result
value rather than a total default.
-/

namespace Polar

namespace Ring

/-- The ring buffer state from `ring.Buffer[T]`: backing slice `data`
with `head` (oldest valid index) and `tail` (next write index). -/
structure Buffer (α : Type) where
  data : List α
  head : Nat
  tail : Nat
deriving Repr, DecidableEq

/-- `ring.NewBuffer[T](n)`: Go `make([]T, n)` zero-fills, so the backing
store is `n` copies of the zero value. -/
def NewBuffer (α : Type) [Inhabited α] (n : Nat) : Buffer α :=
  { data := List.replicate n default, head := 0, tail := 0 }

/-- Go's builtin `copy(dst, src)`: overwrites the first
`min |dst| |src|` elements of `dst` with those of `src`.  Returns the
updated `dst` and the count copied. -/
def goCopy (dst src : List α) : List α × Nat :=
  let n := min dst.length src.length
  (src.take n ++ dst.drop n, n)

/-- `(*Buffer).Len`.  Go `int` arithmetic, so the result is an `Int`
(it can go negative only for states the code never certifies, e.g.
`head` beyond the backing array). -/
def Buffer.Len (r : Buffer α) : Int :=
  if r.head ≤ r.tail then (r.tail : Int) - (r.head : Int)
  else (r.data.length : Int) - (r.head : Int) + (r.tail : Int)

/-- `(*Buffer).Size`: the backing capacity. -/
def Buffer.Size (r : Buffer α) : Nat := r.data.length

/-- `(*Buffer).Write`.  Mirrors the Go statement for statement:
the full-overwrite fast path for `len(src) >= len(r.data)`, then
`n := copy(r.data[r.tail:], src)`, the early return when all of `src`
fitted, then `r.tail = copy(r.data, src[n:])` and the eviction
`if r.tail > r.head { r.head = r.tail }`. -/
def Buffer.Write (r : Buffer α) (src : List α) : Buffer α :=
  if src.length ≥ r.data.length then
    { data := (goCopy r.data (src.drop (src.length - r.data.length))).1,
      head := 0, tail := r.data.length }
  else
    let c1 := goCopy (r.data.drop r.tail) src
    let n := c1.2
    let data1 := r.data.take r.tail ++ c1.1
    if src.length ≤ n then
      { data := data1, head := r.head, tail := r.tail + n }
    else
      let c2 := goCopy data1 (src.drop n)
      let tail1 := c2.2
      { data := c2.1,
        head := if tail1 > r.head then tail1 else r.head,
        tail := tail1 }

/-- `(*Buffer).CopyTo`.  The Go method only reads the receiver (no field
assignment), so the embedding returns just the filled `dst` and the
count: non-mutation of `head`, `tail` and `data` is structural. -/
def Buffer.CopyTo (r : Buffer α) (dst : List α) : List α × Nat :=
  if r.head < r.tail then
    goCopy dst ((r.data.take r.tail).drop r.head)
  else
    let c1 := goCopy dst (r.data.drop r.head)
    let c2 := goCopy (c1.1.drop c1.2) (r.data.take r.tail)
    (c1.1.take c1.2 ++ c2.1, c1.2 + c2.2)

/-- `(*Buffer).Advance`.  `front := len(r.data) - r.head` is a Go `int`;
for the well-formed states considered (`head ≤ len(data)`) the `Nat`
subtraction agrees with it. -/
def Buffer.Advance (r : Buffer α) (n : Nat) : Buffer α :=
  if r.head < r.tail then
    { r with head := r.head + min n (r.tail - r.head) }
  else
    let front := r.data.length - r.head
    if n ≤ front then { r with head := r.head + n }
    else { r with head := n - front }

/-- The logically valid region, oldest first: `data[head:tail]` when
`head < tail`, else the wrapped span `data[head:] ++ data[:tail]`
(which for `head == tail` is the whole array, the reading `CopyTo`
and `Advance` take of that state). -/
def Buffer.contents (r : Buffer α) : List α :=
  if r.head < r.tail then (r.data.take r.tail).drop r.head
  else r.data.drop r.head ++ r.data.take r.tail

/-- Pure list fact for the wrapped branch of `CopyTo`: filling `dst`
first from `s1` and then from `s2` yields a prefix of `s1 ++ s2`
followed by the untouched remainder of `dst`. -/
theorem two_segment_take (s1 s2 dst : List α) (n1 n2 : Nat)
    (h1 : n1 = min dst.length s1.length)
    (h2 : n2 = min (dst.length - n1) s2.length) :
    s1.take n1 ++ (s2.take n2 ++ dst.drop (n1 + n2)) =
      (s1 ++ s2).take (n1 + n2) ++ dst.drop (n1 + n2) := by
  rw [List.take_append_eq_append_take]
  rcases Nat.le_total dst.length s1.length with h | h
  · have e2 : n1 + n2 - s1.length = 0 := by omega
    have e1 : n2 = 0 := by omega
    rw [e2, e1]
    simp
  · have e2 : n1 + n2 - s1.length = n2 := by omega
    rw [e2]
    have e3 : s1.take (n1 + n2) = s1 := List.take_of_length_le (by omega)
    have e4 : s1.take n1 = s1 := List.take_of_length_le (by omega)
    rw [e3, e4]
    simp

/-- `CopyTo` computed in closed form: for any well-formed state it
copies `min |dst| |contents|` elements of the oldest-first contents
into the front of `dst` and returns that count. -/
theorem copyTo_eq (r : Buffer α) (dst : List α)
    (hh : r.head ≤ r.data.length) (ht : r.tail ≤ r.data.length) :
    r.CopyTo dst =
      (r.contents.take (min dst.length r.contents.length) ++
        dst.drop (min dst.length r.contents.length),
       min dst.length r.contents.length) := by
  by_cases hlt : r.head < r.tail
  · simp only [Buffer.CopyTo, Buffer.contents, goCopy, if_pos hlt]
  · have hs1 : (r.data.drop r.head).length = r.data.length - r.head :=
      List.length_drop _ _
    have hs2 : (r.data.take r.tail).length = r.tail := by
      rw [List.length_take]; omega
    set s1 := r.data.drop r.head with hs1def
    set s2 := r.data.take r.tail with hs2def
    set n1 := min dst.length s1.length with hn1
    have hpre : (s1.take n1).length = n1 := by
      rw [List.length_take]; omega
    have hdrop : (s1.take n1 ++ dst.drop n1).drop n1 = dst.drop n1 :=
      List.drop_left' hpre
    have htake : (s1.take n1 ++ dst.drop n1).take n1 = s1.take n1 :=
      List.take_left' hpre
    set n2 := min (dst.drop n1).length s2.length with hn2
    have hC : r.CopyTo dst =
        (s1.take n1 ++ (s2.take n2 ++ dst.drop (n1 + n2)), n1 + n2) := by
      simp only [Buffer.CopyTo, if_neg hlt, goCopy, ← hs1def, ← hs2def, ← hn1]
      rw [hdrop, htake, ← hn2, List.drop_drop]
    have hcont : r.contents = s1 ++ s2 := by
      simp only [Buffer.contents, if_neg hlt, hs1def, hs2def]
    have hlen2 : n2 = min (dst.length - n1) s2.length := by
      rw [hn2, List.length_drop]
    have hsum : n1 + n2 = min dst.length (s1 ++ s2).length := by
      rw [List.length_append]; omega
    rw [hC, hcont, two_segment_take s1 s2 dst n1 n2 hn1 hlen2, hsum]

end Ring

namespace Pmd

/-- `epoch`: seconds from the Unix epoch to 2000-01-01T00:00:00Z. -/
def epoch : Int := 946684800

/-- Packet offsets from `pmd.go`. -/
def sampleTypeOffset : Nat := 0

def timeStampOffset : Nat := 1

def frameTypeOffset : Nat := 9

def dataOffset : Nat := 10

/-- `measurementTypes`: the handler-array bound (13 slots). -/
def measurementTypes : Nat := 13

def ECGType : Nat := 0

def ECGFrameType0 : Nat := 0

def ECGSamplingStride : Nat := 3

/-- Go `int8(b)` for a byte value: two's-complement reinterpretation. -/
def int8cast (b : Nat) : Int := if b < 128 then (b : Int) else (b : Int) - 256

/-- Go `int64(v)` for a `uint64` value: two's-complement wrap at `2^63`. -/
def goInt64 (v : Nat) : Int :=
  if v < 2 ^ 63 then (v : Int) else (v : Int) - 2 ^ 64

/-- `leInt24` from `pmd.go`:
`int32(b[0]) | int32(b[1])<<8 | int32(int8(b[2]))<<16`.
For byte operands the three ors combine disjoint bit ranges of the
two's-complement result, so they equal the sum written here. -/
def leInt24 (b0 b1 b2 : Nat) : Int :=
  (b0 : Int) + (b1 : Int) * 256 + int8cast b2 * 65536

/-- `binary.LittleEndian.Uint64` on the front of `b`: callers guarantee
at least 8 bytes (Go panics otherwise; every use here sits behind a
length guard). -/
def leUint64 (b : List Nat) : Nat :=
  b.getD 0 0 + b.getD 1 0 * 256 + b.getD 2 0 * 256 ^ 2 + b.getD 3 0 * 256 ^ 3 +
    b.getD 4 0 * 256 ^ 4 + b.getD 5 0 * 256 ^ 5 + b.getD 6 0 * 256 ^ 6 +
    b.getD 7 0 * 256 ^ 7

/-- `time.Unix(sec, nsec)` as nanoseconds since the Unix epoch (Go
normalises an out-of-range `nsec` into `sec`, so the instant is exactly
this sum). -/
def timeUnixNs (sec nsec : Int) : Int := sec * 1000000000 + nsec

/-- The timestamp conversion of the frame decoders:
`time.Unix(int64(timestamp)/1e9+epoch, int64(timestamp)%1e9)`, with
Go's truncated (toward zero) `int64` division and remainder. -/
def decodeTimestamp (ts : Nat) : Int :=
  timeUnixNs (Int.tdiv (goInt64 ts) 1000000000 + epoch)
    (Int.tmod (goInt64 ts) 1000000000)

/-- Decoded `pmd.ECG`: `Timestamp` as nanoseconds since the Unix epoch,
`Trace` in µV. -/
structure ECG where
  timestampNs : Int
  trace : List Int
deriving Repr, DecidableEq

/-- The ECG sample loop: consume 3-byte groups through `leInt24`. -/
def ecgTrace : List Nat → List Int
  | b0 :: b1 :: b2 :: rest => leInt24 b0 b1 b2 :: ecgTrace rest
  | _ => []

/-- A decode outcome: Go error values are strings; an out-of-range
slice or array index (a Go runtime panic) is `panicked`. -/
inductive Decoded (α : Type) where
  | ok (v : α)
  | err (msg : String)
  | panicked
deriving Repr, DecidableEq

/-- `(*ECG).UnmarshalBinary`: reads `data[sampleTypeOffset]` and
`data[frameTypeOffset]` (panicking when absent, as the Go indexing
does), takes the 8-byte little-endian timestamp at offset 1 (in range
once `data[9]` exists), and requires the residual length to be a
multiple of `ECGSamplingStride`. -/
def ecgUnmarshalBinary (data : List Nat) : Decoded ECG :=
  match data.get? sampleTypeOffset with
  | none => .panicked
  | some t =>
    if t ≠ ECGType then .err "expected sample type ecg" else
    match data.get? frameTypeOffset with
    | none => .panicked
    | some ft =>
      if ft ≠ ECGFrameType0 then .err "expected frame type ecg" else
      let timestamp := leUint64 (data.drop timeStampOffset)
      let trace := data.drop dataOffset
      if trace.length % ECGSamplingStride ≠ 0 then
        .err "number of samples not a factor of 3"
      else
        .ok { timestampNs := decodeTimestamp timestamp, trace := ecgTrace trace }

/-- The result of one `Listener.dispatch` call: the payload is dropped,
an installed handler is invoked on it, or the unchecked index into the
13-slot handler array is out of range (a Go runtime panic). -/
inductive DispatchResult (H : Type) where
  | dropped
  | handled (h : H) (buf : List Nat)
  | panicked
deriving Repr, DecidableEq

/-- The dispatch-relevant `pmd.Listener` state: the
`[measurementTypes]func([]byte)` handler array, a `nil` entry being
`none`.  Well-formed listeners have exactly `measurementTypes` slots. -/
structure Listener (H : Type) where
  handlers : List (Option H)
deriving Repr, DecidableEq

/-- `(*Listener).dispatch`: an empty payload returns immediately;
otherwise `l.handlers[buf[sampleTypeOffset]]` is read with no bound
check, and a non-nil entry is invoked on the whole payload. -/
def Listener.dispatch (l : Listener H) (buf : List Nat) : DispatchResult H :=
  match buf with
  | [] => .dropped
  | b :: _ =>
    match l.handlers.get? b with
    | none => .panicked
    | some none => .dropped
    | some (some h) => .handled h buf

/-- `(*Listener).SetHandler`, its transport effect abstracted: the Go
method validates `measureTyp` against the array bound, assigns the
handler slot, and only then calls `sendCommand`, whose outcome
`sendResult` (response bytes or error, e.g. a deadline expiry) is
returned unchanged — there is no code path that restores the slot. -/
def Listener.SetHandler (l : Listener H) (measureTyp : Nat)
    (handle : Option H) (sendResult : Except String (List Nat)) :
    Listener H × Except String (List Nat) :=
  if l.handlers.length ≤ measureTyp then
    (l, .error "invalid measurement type")
  else
    ({ handlers := l.handlers.set measureTyp handle }, sendResult)

/-- One row of the static `settingTypes` table. -/
structure SettingInfo where
  typ : Nat
  n : Nat
  size : Nat
deriving Repr, DecidableEq

def uint8Kind : Nat := 1

def uint16Kind : Nat := 2

def float32Kind : Nat := 3

def uint8Size : Nat := 1

def uint16Size : Nat := 2

def float32Size : Nat := 4

def headerSize : Nat := 2

/-- The static `settingTypes` table: indices are `SettingType` values
(SampleRate 0, Resolution 1, RangeUnit 2, Channels 4, ConversionFactor
5); index 3 is the zero row Go's sparse array literal leaves. -/
def settingTypes : List SettingInfo :=
  [⟨uint16Kind, 1, uint16Size⟩, ⟨uint16Kind, 1, uint16Size⟩,
   ⟨uint16Kind, 1, uint16Size⟩, ⟨0, 0, 0⟩,
   ⟨uint8Kind, 1, uint8Size⟩, ⟨float32Kind, 1, float32Size⟩]

/-- `binary.LittleEndian.PutUint16`: `byte(v), byte(v>>8)`. -/
def putUint16 (v : Nat) : List Nat := [v % 256, v / 256 % 256]

/-- `binary.LittleEndian.Uint16` on the front of `b` (callers sit
behind a length guard). -/
def getUint16 (b : List Nat) : Nat := b.getD 0 0 + b.getD 1 0 * 256

/-- `binary.LittleEndian.PutUint32`.  `float32` setting values are
modelled throughout by their IEEE-754 bit patterns:
`math.Float32bits` / `math.Float32frombits` are mutually inverse raw
bit casts, so the codec acts on the 32-bit patterns alone. -/
def putUint32 (v : Nat) : List Nat :=
  [v % 256, v / 256 % 256, v / 256 ^ 2 % 256, v / 256 ^ 3 % 256]

/-- `binary.LittleEndian.Uint32` on the front of `b`. -/
def getUint32 (b : List Nat) : Nat :=
  b.getD 0 0 + b.getD 1 0 * 256 + b.getD 2 0 * 256 ^ 2 + b.getD 3 0 * 256 ^ 3

/-- `Uint8.write`: validates the type / element-count / element-width
triple against `settingTypes` before anything else, then emits
`[type, count]` followed by the raw byte values.  The write happens
into a caller buffer; its `len(dst) < w.Size()` check sits after the
validation and the claims always provide large-enough buffers, so the
embedding returns the bytes written.  `byte(...)` truncations kept. -/
def uint8Write (typ : Nat) (vals : List Nat) : Except String (List Nat) :=
  if settingTypes.length ≤ typ ∨ (settingTypes.getD typ ⟨0, 0, 0⟩).n ≠ vals.length ∨
      (settingTypes.getD typ ⟨0, 0, 0⟩).size ≠ uint8Size then
    .error "invalid setting type"
  else
    .ok ([typ % 256, vals.length % 256] ++ vals)

/-- `Uint16.write` (same shape as `Uint8.write`, little-endian 16-bit
elements; the second table width check in the Go body is subsumed by
the first). -/
def uint16Write (typ : Nat) (vals : List Nat) : Except String (List Nat) :=
  if settingTypes.length ≤ typ ∨ (settingTypes.getD typ ⟨0, 0, 0⟩).n ≠ vals.length ∨
      (settingTypes.getD typ ⟨0, 0, 0⟩).size ≠ uint16Size then
    .error "invalid setting type"
  else
    .ok ([typ % 256, vals.length % 256] ++ (vals.map putUint16).flatten)

/-- `Float32.write` on bit patterns. -/
def float32Write (typ : Nat) (vals : List Nat) : Except String (List Nat) :=
  if settingTypes.length ≤ typ ∨ (settingTypes.getD typ ⟨0, 0, 0⟩).n ≠ vals.length ∨
      (settingTypes.getD typ ⟨0, 0, 0⟩).size ≠ float32Size then
    .error "invalid setting type"
  else
    .ok ([typ % 256, vals.length % 256] ++ (vals.map putUint32).flatten)

/-- The element loop of `Uint16.UnmarshalBinary`: read `k` values,
consuming 2 bytes each. -/
def getUint16List : Nat → List Nat → List Nat
  | 0, _ => []
  | k + 1, b => getUint16 b :: getUint16List k (b.drop 2)

/-- The element loop of `Float32.UnmarshalBinary` (bit patterns). -/
def getUint32List : Nat → List Nat → List Nat
  | 0, _ => []
  | k + 1, b => getUint32 b :: getUint32List k (b.drop 4)

/-- `(*Uint8).UnmarshalBinary`: short-input checks, then the declared
count `data[1]` many raw bytes.  No validation against `settingTypes`
appears in the Go body. -/
def uint8Unmarshal (data : List Nat) : Except String (Nat × List Nat) :=
  if data.length < headerSize then .error "unexpected EOF"
  else
    let n := data.getD 1 0
    if data.length < headerSize + n * uint8Size then .error "unexpected EOF"
    else .ok (data.getD 0 0, (data.drop headerSize).take n)

/-- `(*Uint16).UnmarshalBinary`: same shape, 16-bit little-endian
elements. -/
def uint16Unmarshal (data : List Nat) : Except String (Nat × List Nat) :=
  if data.length < headerSize then .error "unexpected EOF"
  else
    let n := data.getD 1 0
    if data.length < headerSize + n * uint16Size then .error "unexpected EOF"
    else .ok (data.getD 0 0, getUint16List n (data.drop headerSize))

/-- `(*Float32).UnmarshalBinary` on bit patterns. -/
def float32Unmarshal (data : List Nat) : Except String (Nat × List Nat) :=
  if data.length < headerSize then .error "unexpected EOF"
  else
    let n := data.getD 1 0
    if data.length < headerSize + n * float32Size then .error "unexpected EOF"
    else .ok (data.getD 0 0, getUint32List n (data.drop headerSize))

/-- A parsed `Setting` value as `parseSetting` builds them. -/
inductive Setting where
  | u8 (typ : Nat) (vals : List Nat)
  | u16 (typ : Nat) (vals : List Nat)
  | f32 (typ : Nat) (vals : List Nat)
deriving Repr, DecidableEq

/-- `Setting.Size`, per variant width. -/
def Setting.size : Setting → Nat
  | .u8 _ vals => headerSize + vals.length * uint8Size
  | .u16 _ vals => headerSize + vals.length * uint16Size
  | .f32 _ vals => headerSize + vals.length * float32Size

/-- The `parseSetting` loop.  `fuel` bounds the iterations: each Go
iteration consumes a record of at least `headerSize` bytes, so
`data.length` iterations always suffice.  Go returns the partially
built list alongside an error; callers use the list only when the
error is nil, so the embedding keeps the error alone. -/
def parseSettingLoop : Nat → List Nat → Except String (List Setting)
  | _, [] => .ok []
  | 0, _ :: _ => .error "out of fuel"
  | fuel + 1, t :: rest =>
    if settingTypes.length ≤ t ∨ (settingTypes.getD t ⟨0, 0, 0⟩).typ = 0 then
      .error "unknown setting type"
    else
      let info := settingTypes.getD t ⟨0, 0, 0⟩
      let parsed : Except String Setting :=
        if info.typ = uint8Kind then
          (uint8Unmarshal (t :: rest)).map fun v => .u8 v.1 v.2
        else if info.typ = uint16Kind then
          (uint16Unmarshal (t :: rest)).map fun v => .u16 v.1 v.2
        else if info.typ = float32Kind then
          (float32Unmarshal (t :: rest)).map fun v => .f32 v.1 v.2
        else .error "unknown setting type"
      match parsed with
      | .error e => .error e
      | .ok s =>
        match parseSettingLoop fuel ((t :: rest).drop s.size) with
        | .error e => .error e
        | .ok tl => .ok (s :: tl)

/-- `parseSetting` with always-sufficient fuel. -/
def parseSetting (data : List Nat) : Except String (List Setting) :=
  parseSettingLoop data.length data

/-- The distinct error classes `querySettings` can surface;
`deadlineExceeded` stands for the `ctx.Err()` value. -/
inductive QueryError where
  | deadlineExceeded
  | shortResponse (resp : List Nat)
  | invalidResponse (resp : List Nat)
  | parseFailure (msg : String)
deriving Repr, DecidableEq

/-- `querySettings` (pmd.go), with the select outcome supplied:
`response` is `some buf` when the control-point notification arrived
before the caller's deadline, and `none` when the deadline expired
first.  In the `none` case the Go code has assigned `err = ctx.Err()`,
but no later return path reads `err`: `settings` is still nil, so the
function falls into the `len(settings) < 5` short-response return.
The embedding follows the returns, so `deadlineExceeded` is never
produced. -/
def querySettings (com : Nat) (response : Option (List Nat)) :
    Except QueryError (List Setting) :=
  let settings := response.getD []
  if settings.length < 5 then .error (.shortResponse settings)
  else if settings.getD 0 0 ≠ 0xf0 ∨ settings.getD 1 0 ≠ com then
    .error (.invalidResponse settings)
  else if settings.getD 3 0 ≠ 0 then .error (.invalidResponse (settings.take 5))
  else
    match parseSetting (settings.drop 5) with
    | .ok s => .ok s
    | .error e => .error (.parseFailure e)

end Pmd

end Polar

namespace Polar

open Ring

/-- C2: the claim asserts that after `Write [1,2]` then `Write [3]`
(state `data=[1,2,3,0], head=0, tail=3`), `Write [4,5,6]` yields the
backing array `[5,2,3,4]` with `head=1, tail=1`.  The code instead
copies `4` at index 3, wraps `5,6` to indices 0 and 1, sets `tail=2`
and evicts `head` to `2`, so the claim's state is not reached. -/
theorem C2_counterexample :
    (((NewBuffer Int 4).Write [1, 2]).Write [3]).Write [4, 5, 6] ≠
      { data := [5, 2, 3, 4], head := 1, tail := 1 } := by
  decide

/-- C2 amended: from the state reached by writing `[1,2]` then `[3]`
(namely `data=[1,2,3,0], head=0, tail=3`), `Write [4,5,6]` leaves the
backing array physically `[5,6,3,4]` with `head=2` and `tail=2`. -/
theorem C2_amended :
    (((NewBuffer Int 4).Write [1, 2]).Write [3] =
      { data := [1, 2, 3, 0], head := 0, tail := 3 }) ∧
    (((NewBuffer Int 4).Write [1, 2]).Write [3]).Write [4, 5, 6] =
      { data := [5, 6, 3, 4], head := 2, tail := 2 } := by
  constructor <;> decide

/-- C3: the claim asserts `CopyTo` always copies `min |dst| Len()`
elements, and in particular copies 0 on a freshly created buffer with
`head == tail == 0`.  On that fresh buffer `Len() = 0` but `CopyTo`
takes the wrapped branch (`head < tail` fails) and copies the whole
zero-filled backing array: 4 elements, not 0. -/
theorem C3_counterexample :
    (NewBuffer Int 4).Len = 0 ∧ ((NewBuffer Int 4).CopyTo [9, 9, 9, 9]).2 = 4 := by
  constructor <;> decide

/-- C3 amended: `CopyTo` copies `min |dst| |contents|` oldest-first
valid elements into the front of `dst` and returns that count, never
mutating the buffer (structurally: the Go method assigns no field).
When `head ≠ tail` that count is `min |dst| Len()` as claimed; when
`head == tail` (empty and full coincide) the wrapped span is the whole
backing array, so the count is `min |dst| Size()` instead. -/
theorem C3_amended (r : Buffer Int) (dst : List Int)
    (hh : r.head ≤ r.Size) (ht : r.tail ≤ r.Size) :
    r.CopyTo dst =
      (r.contents.take (min dst.length r.contents.length) ++
        dst.drop (min dst.length r.contents.length),
       min dst.length r.contents.length) ∧
    (r.head ≠ r.tail → r.contents.length = r.Len.toNat) ∧
    (r.head = r.tail → r.contents.length = r.Size) := by
  have hh' : r.head ≤ r.data.length := hh
  have ht' : r.tail ≤ r.data.length := ht
  refine ⟨copyTo_eq r dst hh' ht', ?_, ?_⟩
  · intro hne
    unfold Buffer.contents Buffer.Len
    by_cases hlt : r.head < r.tail
    · rw [if_pos hlt, if_pos (le_of_lt hlt)]
      simp only [List.length_drop, List.length_take]
      omega
    · rw [if_neg hlt, if_neg (by omega : ¬r.head ≤ r.tail)]
      simp only [List.length_append, List.length_drop, List.length_take]
      omega
  · intro heq
    unfold Buffer.contents Buffer.Size
    rw [if_neg (by omega : ¬r.head < r.tail)]
    simp only [List.length_append, List.length_drop, List.length_take]
    omega

/-- C3 witness. -/
theorem C3_witness :
    (⟨[5, 2, 3, 4], 2, 1⟩ : Buffer Int).CopyTo [0, 0, 0, 0, 0] =
      ([3, 4, 5, 0, 0], 3) := by
  have h := C3_amended (⟨[5, 2, 3, 4], 2, 1⟩ : Buffer Int) [0, 0, 0, 0, 0]
    (by decide) (by decide)
  have h1 := h.1
  simpa using h1

/-- C4: the claim asserts that for every non-full state and `n ≥ 0`,
`Advance n` is clamped so that afterwards `Len() = max (old Len - n) 0`.
The wrapped, partially-filled state `data=[5,6,3,4], head=3, tail=2`
(reachable by `Write [1,2,3,4]; Advance 3; Write [5,6]`) has `Len() = 3`;
`Advance 4` takes the unclamped wrap branch (`head = n - front = 3`),
leaving `Len() = 3` instead of the claimed `0`. -/
theorem C4_counterexample :
    ((⟨[5, 6, 3, 4], 3, 2⟩ : Buffer Int).Advance 4).Len ≠
      max ((⟨[5, 6, 3, 4], 3, 2⟩ : Buffer Int).Len - 4) 0 := by
  decide

/-- C4 amended: `Advance n` leaves `tail` unchanged and gives
`Len() = max (old Len - n) 0` for non-wrapped states (`head < tail`,
any `n`) and for wrapped states (`tail < head`) provided `n` does not
exceed the current `Len()`; beyond that the wrap branch `head = n - front`
is not clamped against `tail`. -/
theorem C4_amended (r : Buffer Int) (n : Nat)
    (hh : r.head ≤ r.Size) (ht : r.tail ≤ r.Size)
    (hcase : r.head < r.tail ∨ (r.tail < r.head ∧ (n : Int) ≤ r.Len)) :
    (r.Advance n).Len = max (r.Len - n) 0 ∧ (r.Advance n).tail = r.tail := by
  have hh' : r.head ≤ r.data.length := hh
  have ht' : r.tail ≤ r.data.length := ht
  rcases hcase with hlt | ⟨hgt, hn⟩
  · have hLen : r.Len = (r.tail : Int) - (r.head : Int) := by
      unfold Buffer.Len; rw [if_pos (le_of_lt hlt)]
    have hA : r.Advance n = { r with head := r.head + min n (r.tail - r.head) } := by
      unfold Buffer.Advance; rw [if_pos hlt]
    rw [hA, hLen]
    refine ⟨?_, rfl⟩
    unfold Buffer.Len
    split_ifs <;> simp only [List.length_drop, List.length_take] at * <;> omega
  · have hLen : r.Len = (r.data.length : Int) - (r.head : Int) + (r.tail : Int) := by
      unfold Buffer.Len; rw [if_neg (by omega : ¬r.head ≤ r.tail)]
    rw [hLen] at hn
    by_cases hf : n ≤ r.data.length - r.head
    · have hA : r.Advance n = { r with head := r.head + n } := by
        unfold Buffer.Advance
        rw [if_neg (by omega : ¬r.head < r.tail)]
        simp only [if_pos hf]
      rw [hA, hLen]
      refine ⟨?_, rfl⟩
      unfold Buffer.Len
      dsimp only
      split_ifs <;> omega
    · have hA : r.Advance n = { r with head := n - (r.data.length - r.head) } := by
        unfold Buffer.Advance
        rw [if_neg (by omega : ¬r.head < r.tail)]
        simp only [if_neg hf]
      rw [hA, hLen]
      refine ⟨?_, rfl⟩
      unfold Buffer.Len
      dsimp only
      split_ifs <;> omega

/-- C4 witness. -/
theorem C4_witness :
    ((⟨[5, 6, 3, 4], 3, 2⟩ : Buffer Int).Advance 2).Len =
      max ((⟨[5, 6, 3, 4], 3, 2⟩ : Buffer Int).Len - 2) 0 :=
  (C4_amended (⟨[5, 6, 3, 4], 3, 2⟩ : Buffer Int) 2 (by decide) (by decide)
    (Or.inr ⟨by decide, by decide⟩)).1

end Polar

namespace Polar

open Pmd

/-- C1: the claim says no payload — including one whose leading byte is
13 or greater, or one shorter than the 10-byte header — causes an
out-of-range access or panic.  But `dispatch` indexes the 13-slot
handler array with the raw leading byte (no bound check, unlike
`SetHandler`), so a payload beginning with byte 13 is an out-of-range
array access (a Go runtime panic); likewise `ECG.UnmarshalBinary`
indexes `data[9]` on a 1-byte payload. -/
theorem C1_bug :
    ({ handlers := List.replicate measurementTypes none } :
        Listener Nat).dispatch [13] = .panicked ∧
    ecgUnmarshalBinary [0] = .panicked := by
  constructor <;> rfl

/-- C5: the claim says `querySettings` returns the caller's
deadline-exceeded error, distinct from the short-response error, when
no response notification ever arrives.  The Go function assigns
`err = ctx.Err()` in that case but never returns it: with `settings`
still nil it takes the `len(settings) < 5` branch and returns the
short-response error instead. -/
theorem C5_bug :
    querySettings 1 none = .error (.shortResponse []) ∧
    QueryError.shortResponse [] ≠ QueryError.deadlineExceeded := by
  constructor
  · rfl
  · decide

/-- C6: the claim says a count mismatch against the static table is
rejected on decode as well as encode.  `Uint16.UnmarshalBinary` (and
`parseSetting`) accept the declared count `data[1]` whenever enough
bytes follow: a SampleRate (type 0, table count 1) record declaring 2
elements decodes without error. -/
theorem C6_counterexample :
    uint16Unmarshal [0, 2, 1, 0, 2, 0] = .ok (0, [1, 2]) ∧
    parseSetting [0, 2, 1, 0, 2, 0] = .ok [.u16 0 [1, 2]] := by
  constructor <;> rfl

/-- C6 amended: a setting record whose element count disagrees with the
table's required count is rejected with an error by encoding (`write`,
all three kinds); decoding accepts any declared count that fits the
input, validating only the type tag, as the counterexample record
shows. -/
theorem C6_amended :
    (∀ typ vals, typ < settingTypes.length →
      (settingTypes.getD typ ⟨0, 0, 0⟩).n ≠ vals.length →
      uint8Write typ vals = .error "invalid setting type" ∧
      uint16Write typ vals = .error "invalid setting type" ∧
      float32Write typ vals = .error "invalid setting type") ∧
    uint16Unmarshal [0, 2, 1, 0, 2, 0] = .ok (0, [1, 2]) := by
  refine ⟨fun typ vals _ hn => ?_, rfl⟩
  refine ⟨?_, ?_, ?_⟩ <;>
    · simp only [uint8Write, uint16Write, float32Write]
      rw [if_pos (Or.inr (Or.inl hn))]

/-- C6 witness. -/
theorem C6_witness :
    uint8Write 0 [1, 2] = .error "invalid setting type" ∧
    uint16Write 0 [1, 2] = .error "invalid setting type" ∧
    float32Write 0 [1, 2] = .error "invalid setting type" :=
  C6_amended.1 0 [1, 2] (by decide) (by decide)

/-- C7: on a payload with type byte 0 and frame-type byte 0,
`ECG.UnmarshalBinary` errors unless the post-header length is a
multiple of 3, and otherwise decodes each 3-byte little-endian group
through `leInt24`, which sign-extends bit 23: in particular
`0x01,0x00,0x00 → 1`, `0xFF,0xFF,0xFF → -1` and
`0x00,0x00,0x80 → -8388608`. -/
theorem C7 (data : List Nat)
    (h0 : data.get? sampleTypeOffset = some 0)
    (h9 : data.get? frameTypeOffset = some 0) :
    ((data.drop dataOffset).length % 3 ≠ 0 →
      ecgUnmarshalBinary data = .err "number of samples not a factor of 3") ∧
    ((data.drop dataOffset).length % 3 = 0 →
      ecgUnmarshalBinary data =
        .ok { timestampNs := decodeTimestamp (leUint64 (data.drop timeStampOffset)),
              trace := ecgTrace (data.drop dataOffset) }) ∧
    (∀ b0 b1 b2 rest, ecgTrace (b0 :: b1 :: b2 :: rest) =
      leInt24 b0 b1 b2 :: ecgTrace rest) ∧
    (∀ b0 b1 b2, b0 < 256 → b1 < 256 → b2 < 256 →
      leInt24 b0 b1 b2 =
        if b0 + b1 * 256 + b2 * 65536 < 2 ^ 23 then
          (b0 + b1 * 256 + b2 * 65536 : Int)
        else (b0 + b1 * 256 + b2 * 65536 : Int) - 2 ^ 24) ∧
    leInt24 1 0 0 = 1 ∧ leInt24 255 255 255 = -1 ∧ leInt24 0 0 128 = -8388608 := by
  refine ⟨?_, ?_, fun b0 b1 b2 rest => rfl, ?_, by decide, by decide, by decide⟩
  · intro hm
    rw [List.length_drop] at hm
    unfold ecgUnmarshalBinary
    rw [h0, h9]
    simp [ECGType, ECGFrameType0, ECGSamplingStride, hm]
  · intro hm
    rw [List.length_drop] at hm
    unfold ecgUnmarshalBinary
    rw [h0, h9]
    simp [ECGType, ECGFrameType0, ECGSamplingStride, hm]
  · intro b0 b1 b2 hb0 hb1 hb2
    unfold leInt24 int8cast
    split_ifs <;> push_cast <;> omega

/-- C7 witness: the 19-byte payload with the three claimed sample
patterns decodes to `[1, -1, -8388608]` and the device-epoch timestamp. -/
theorem C7_witness :
    ecgUnmarshalBinary
        [0, 0, 0, 0, 0, 0, 0, 0, 0, 0, 1, 0, 0, 255, 255, 255, 0, 0, 128] =
      .ok { timestampNs := 946684800000000000, trace := [1, -1, -8388608] } := by
  have h := (C7 [0, 0, 0, 0, 0, 0, 0, 0, 0, 0, 1, 0, 0, 255, 255, 255, 0, 0, 128]
    rfl rfl).2.1 (by decide)
  rw [h]
  decide

/-- C8: for every `SettingType` in the static table with a value list
matching its required count and width — SampleRate/Resolution/RangeUnit
(`Uint16`, one element), Channels (`Uint8`, one element),
ConversionFactor (`Float32`, one element, value as its IEEE-754 bit
pattern) — `write` followed by `UnmarshalBinary` of the written bytes
reproduces the original type tag and values exactly. -/
theorem C8 (v16 v8 v32 : Nat) (h16 : v16 < 2 ^ 16) (h8 : v8 < 2 ^ 8)
    (h32 : v32 < 2 ^ 32) :
    (∀ typ, typ = 0 ∨ typ = 1 ∨ typ = 2 →
      (uint16Write typ [v16]).bind uint16Unmarshal = .ok (typ, [v16])) ∧
    (uint8Write 4 [v8]).bind uint8Unmarshal = .ok (4, [v8]) ∧
    (float32Write 5 [v32]).bind float32Unmarshal = .ok (5, [v32]) := by
  refine ⟨?_, ?_, ?_⟩
  · rintro typ (rfl | rfl | rfl) <;>
    · simp [uint16Write, uint16Unmarshal, settingTypes, putUint16, getUint16,
        getUint16List, headerSize, uint16Size, Except.bind]
      omega
  · simp [uint8Write, uint8Unmarshal, settingTypes, headerSize, uint8Size,
      Except.bind]
  · simp [float32Write, float32Unmarshal, settingTypes, putUint32, getUint32,
      getUint32List, headerSize, float32Size, Except.bind]
    omega

/-- C8 witness. -/
theorem C8_witness :
    (uint16Write 0 [130]).bind uint16Unmarshal = .ok (0, [130]) ∧
    (uint8Write 4 [3]).bind uint8Unmarshal = .ok (4, [3]) ∧
    (float32Write 5 [3212836864]).bind float32Unmarshal = .ok (5, [3212836864]) := by
  have h := C8 130 3 3212836864 (by decide) (by decide) (by decide)
  exact ⟨h.1 0 (Or.inl rfl), h.2.1, h.2.2⟩

/-- C9: the claim reads the 64-bit timestamp as an unsigned nanosecond
count for every value.  The Go code passes it through
`int64(timestamp)`, so a value with the top bit set wraps negative:
for `t = 2^63` the decoded instant is `epoch·10⁹ - 2^63` ns, not the
claimed `epoch·10⁹ + 2^63` — shown on a concrete ECG payload whose
timestamp bytes are `0,0,0,0,0,0,0,0x80`. -/
theorem C9_counterexample :
    decodeTimestamp (2 ^ 63) ≠ epoch * 1000000000 + 2 ^ 63 ∧
    ecgUnmarshalBinary [0, 0, 0, 0, 0, 0, 0, 0, 128, 0] =
      .ok { timestampNs := epoch * 1000000000 - 2 ^ 63, trace := [] } := by
  constructor <;> decide

/-- C9 amended: for every 64-bit timestamp value `t` the decoded
instant is `946684800 s` past the Unix epoch plus `t` nanoseconds with
`t` read as a signed (two's-complement) 64-bit value; for `t < 2^63`
this coincides with the unsigned reading the claim states. -/
theorem C9_amended (ts : Nat) (h : ts < 2 ^ 64) :
    decodeTimestamp ts = epoch * 1000000000 + goInt64 ts ∧
    (ts < 2 ^ 63 → decodeTimestamp ts = epoch * 1000000000 + ts) := by
  have h1 := Int.tdiv_add_tmod (goInt64 ts) 1000000000
  have h2 : ts < 2 ^ 63 → goInt64 ts = (ts : Int) := fun hlt => if_pos hlt
  unfold decodeTimestamp timeUnixNs
  constructor
  · omega
  · intro hlt
    rw [h2 hlt] at h1 ⊢
    omega

/-- C9 witness. -/
theorem C9_witness : decodeTimestamp 5 = epoch * 1000000000 + 5 :=
  (C9_amended 5 (by decide)).2 (by decide)

/-- C10: `SetHandler` with an in-range measurement type stores the
handler into its dispatch slot before the command send; the slot update
is kept whatever `sendCommand` returns (the result — response bytes or
error, e.g. a deadline expiry — is passed through unchanged and no code
path restores the slot), and every other slot is left unchanged. -/
theorem C10 (l : Listener H) (measureTyp : Nat) (handle : Option H)
    (sendResult : Except String (List Nat))
    (h : measureTyp < l.handlers.length) :
    (l.SetHandler measureTyp handle sendResult).1.handlers =
      l.handlers.set measureTyp handle ∧
    (l.SetHandler measureTyp handle sendResult).2 = sendResult ∧
    ∀ i, i ≠ measureTyp →
      (l.SetHandler measureTyp handle sendResult).1.handlers.get? i =
        l.handlers.get? i := by
  unfold Listener.SetHandler
  rw [if_neg (by omega)]
  refine ⟨rfl, rfl, fun i hi => ?_⟩
  simp [List.get?_eq_getElem?, List.getElem?_set_ne (fun hc => hi hc.symm)]

/-- C10 witness. -/
theorem C10_witness :
    ((⟨List.replicate measurementTypes none⟩ : Listener Nat).SetHandler 0 (some 7)
        (.error "context deadline exceeded")).1.handlers =
      (List.replicate measurementTypes (none : Option Nat)).set 0 (some 7) ∧
    ((⟨List.replicate measurementTypes none⟩ : Listener Nat).SetHandler 0 (some 7)
        (.error "context deadline exceeded")).2 =
      .error "context deadline exceeded" := by
  have h := C10 (⟨List.replicate measurementTypes none⟩ : Listener Nat) 0 (some 7)
    (.error "context deadline exceeded") (by decide)
  exact ⟨h.1, h.2.1⟩

end Polar
